import Mathlib

/-!
Verification development for the `evit` event emitter
(`src/Event.ts`, `src/unnamed/part_000` = `EmitterInterface.ts`,
`src/unnamed/part_001` = `EventEmitter.ts`).

Shallow embedding notes:

* Listener references are modelled as `Nat` identifiers; two registrations of
  the same identifier model two registrations of the same function reference.
* The TypeScript `const enum ListenerType { ACTIVE, PASSIVE, EARLY }` compiles
  to the numeric literals `0`, `1`, `2`; the `type` argument of `onImpl` is a
  runtime JavaScript value that may be one of those numbers, a boolean, or any
  other (invalid) value, modelled by `TierArg` (invalid values as `num n` with
  `n ≥ 3`).
* The registry `listenerMap : Record<string, EventListenerSet>` is modelled as
  an association list (`Registry`); JavaScript object-key semantics (update in
  place keeps the key position, new keys append, `delete` removes) are given by
  `setKey` / `eraseKey`.
* Each stored entry carries, besides the listener reference `fn`, a ghost
  field `tier` recording the (normalised, numeric) tier it was registered
  with.  No operation of the model reads this field — `offImpl` matches on
  `fn` only and `emitRun` invokes `fn` only — it exists purely so that the
  registry invariant "entries before `passiveIdx` are non-passive, entries
  from `passiveIdx` on are passive" can be stated.
* A listener's behaviour during one emission is an environment
  (`ListenerEnv`): whether its awaited invocation throws (and which value),
  and whether it sets the governing signal's `cancelled` flag to `true`
  before returning or throwing.  (Per the data model the flag is only ever
  set to `true`, never reset, within one emission, so the flag state is
  modelled monotonically.)
* The lifecycle emissions `emit('newListener', …)` / `emit('removeListener', …)`
  performed by `onImpl` / `offImpl`, and the fire-and-forget
  `emit('error', err)` performed by `emitImpl`'s catch branch, are detached
  reentrant calls in the source; the model records them as effect traces
  (lists of fired signals) instead of executing listeners reentrantly.
-/

/-- Model of a JavaScript runtime value, rich enough for truthiness tests on
the `cancellable` field. -/
inductive JSVal where
  | vBool : Bool → JSVal
  | vNum : Int → JSVal
  | vStr : String → JSVal
  | vUndefined : JSVal
  | vNull : JSVal
deriving DecidableEq, Repr

/-- JavaScript truthiness of a `JSVal`. -/
def truthy : JSVal → Bool
  | JSVal.vBool b => b
  | JSVal.vNum n => n != 0
  | JSVal.vStr s => !s.isEmpty
  | JSVal.vUndefined => false
  | JSVal.vNull => false

/-- Model of an object that is `instanceof Event` (src/Event.ts): an immutable
`name`, a `cancellable` field holding an arbitrary runtime value, and the
mutable `cancelled` flag (its value at the moment `emit` is called). -/
structure EventObj where
  name : String
  cancellable : JSVal
  cancelled : Bool
deriving DecidableEq, Repr

/-- A runtime value passed as the first `emit` argument: either an `Event`
instance or any other value. -/
inductive JSArg where
  | ev : EventObj → JSArg
  | other : JSArg
deriving DecidableEq, Repr

/-- `Event.isCancellable(that)` from src/Event.ts:
`that instanceof Event && (<any> that).cancellable`.  The `&&` yields the
field's value, and the only call site uses it as a condition, so the model
returns its truthiness. -/
def isCancellable : JSArg → Bool
  | JSArg.ev e => truthy e.cancellable
  | JSArg.other => false

/-- `const first = args[0]; const event = Event.isCancellable(first) ? first
: undefined;` from `emitImpl`: the governing signal of an emission, if any. -/
def govSignal : Option JSArg → Option EventObj
  | some (JSArg.ev e) => if truthy e.cancellable then some e else none
  | some JSArg.other => none
  | none => none

namespace ListenerType

/-- Numeric value of `ListenerType.ACTIVE` (TS const enum member 0). -/
def ACTIVE : Nat := 0

/-- Numeric value of `ListenerType.PASSIVE` (TS const enum member 1). -/
def PASSIVE : Nat := 1

/-- Numeric value of `ListenerType.EARLY` (TS const enum member 2). -/
def EARLY : Nat := 2

end ListenerType

/-- Runtime value passed as the `type` argument of `onImpl`: a number
(`ListenerType` members are `0`,`1`,`2`; any `n ≥ 3` stands for an invalid
value) or a legacy boolean. -/
inductive TierArg where
  | num : Nat → TierArg
  | bool : Bool → TierArg
deriving DecidableEq, Repr

/-- Legacy-workaround normalisation at the top of `onImpl`:
`if (type === true) type = ListenerType.EARLY; else if (type === false)
type = ListenerType.ACTIVE;` — afterwards the tier is a number. -/
def tierNum : TierArg → Nat
  | TierArg.bool true => ListenerType.EARLY
  | TierArg.bool false => ListenerType.ACTIVE
  | TierArg.num n => n

/-- One entry of an `EventListenerSet`: the listener reference `fn`, plus the
ghost field `tier` (see the header comment; read by no operation). -/
structure Entry where
  fn : Nat
  tier : Nat
deriving DecidableEq, Repr

/-- `interface EventListenerSet { listeners; passiveIdx }` from
src/unnamed/part_001. -/
structure EventListenerSet where
  listeners : List Entry
  passiveIdx : Nat
deriving DecidableEq, Repr

/-- The `listenerMap : Record<string, EventListenerSet>` of one emitter,
as an association list in key-insertion order. -/
abbrev Registry : Type := List (String × EventListenerSet)

/-- `this.listenerMap[eventName]` — lookup of the first binding of a key. -/
def lookupSet : Registry → String → Option EventListenerSet
  | [], _ => none
  | p :: rest, k => if p.1 = k then some p.2 else lookupSet rest k

/-- Assignment `this.listenerMap[k] = s`: replaces the first binding of `k`
in place (JS objects keep the key position) or appends a new binding. -/
def setKey : Registry → String → EventListenerSet → Registry
  | [], k, s => [(k, s)]
  | p :: rest, k, s => if p.1 = k then (k, s) :: rest else p :: setKey rest k s

/-- `delete this.listenerMap[k]`: removes the first binding of `k`. -/
def eraseKey : Registry → String → Registry
  | [], _ => []
  | p :: rest, k => if p.1 = k then rest else p :: eraseKey rest k

/-- The set-level effect of `onImpl` after tier normalisation (`t` numeric):
if no set exists, `{ listeners: [listener], passiveIdx: t === PASSIVE ? 0 : 1 }`;
else `switch (t)`: ACTIVE → `splice(passiveIdx, 0, l)` and `++passiveIdx`;
EARLY → `unshift(l)` and `++passiveIdx`; PASSIVE → `push(l)`; any other value
matches no case and inserts nothing. -/
def onUpdate (set? : Option EventListenerSet) (l : Nat) (t : Nat) :
    EventListenerSet :=
  match set? with
  | none => ⟨[⟨l, t⟩], if t = ListenerType.PASSIVE then 0 else 1⟩
  | some s =>
    if t = ListenerType.ACTIVE then
      ⟨s.listeners.take s.passiveIdx ++ ⟨l, t⟩ :: s.listeners.drop s.passiveIdx,
        s.passiveIdx + 1⟩
    else if t = ListenerType.EARLY then
      ⟨⟨l, t⟩ :: s.listeners, s.passiveIdx + 1⟩
    else if t = ListenerType.PASSIVE then
      ⟨s.listeners ++ [⟨l, t⟩], s.passiveIdx⟩
    else s

/-- `onImpl(eventName, listener, type = ListenerType.ACTIVE)`: updates the
registry and fires one detached `newListener(eventName, listener)` lifecycle
emission (recorded as the second component), unconditionally. -/
def onImpl (reg : Registry) (name : String) (l : Nat) (t : TierArg) :
    Registry × List (String × Nat) :=
  (setKey reg name (onUpdate (lookupSet reg name) l (tierNum t)), [(name, l)])

/-- `addPassiveListenerImpl` — shortcut for `onImpl` with
`ListenerType.PASSIVE`. -/
def addPassiveListenerImpl (reg : Registry) (name : String) (l : Nat) :
    Registry × List (String × Nat) :=
  onImpl reg name l (TierArg.num ListenerType.PASSIVE)

/-- `prependListenerImpl` — calls `onImpl` with the legacy boolean `true`. -/
def prependListenerImpl (reg : Registry) (name : String) (l : Nat) :
    Registry × List (String × Nat) :=
  onImpl reg name l (TierArg.bool true)

/-- JavaScript falsiness of the optional `eventName` argument of `offImpl`:
`undefined` and the empty string are falsy, every other string is truthy. -/
def isFalsyName : Option String → Bool
  | none => true
  | some s => s.isEmpty

/-- `offImpl(eventName?, listener?)`: returns the new registry and the trace
of detached `removeListener(event, listener)` lifecycle emissions it fires.
Branch structure of the source: `if (!eventName)` clear everything (signal
every listener of every event); `if (!listener)` drop the whole set for
`eventName` (signal each of its listeners); else `indexOf`/`splice` the one
entry, delete the set when it became empty, else decrement `passiveIdx` when
the removed index was below it. -/
def offImpl (reg : Registry) (name? : Option String) (l? : Option Nat) :
    Registry × List (String × Nat) :=
  if isFalsyName name? then
    ([], reg.flatMap fun p => p.2.listeners.map fun e => (p.1, e.fn))
  else
    match name?, l? with
    | none, _ => ([], [])
    | some name, none =>
      match lookupSet reg name with
      | none => (reg, [])
      | some s => (eraseKey reg name, s.listeners.map fun e => (name, e.fn))
    | some name, some l =>
      match lookupSet reg name with
      | none => (reg, [])
      | some s =>
        match s.listeners.findIdx? (fun e => e.fn = l) with
        | none => (reg, [])
        | some i =>
          let rest := s.listeners.take i ++ s.listeners.drop (i + 1)
          if rest.length = 0 then
            (eraseKey reg name, [(name, l)])
          else
            (setKey reg name
              ⟨rest, if i < s.passiveIdx then s.passiveIdx - 1 else s.passiveIdx⟩,
              [(name, l)])

/-- Behaviour of the registered listeners during one emission: whether the
awaited invocation of listener `i` throws (`throws i = some v`), and whether
it sets the governing signal's `cancelled` flag to `true` before finishing
(`sets i`; applied whether or not the listener then throws — a listener that
throws before touching the flag is modelled with `sets i = false`). -/
structure ListenerEnv (V : Type) where
  throws : Nat → Option V
  sets : Nat → Bool

/-- The `for (const listener of set.listeners)` loop of `emitImpl`.
Arguments: `isErr` — whether the emitted name is `"error"`; `errAvail` —
whether the registry has a non-empty set for `"error"` (looked up in the
catch branch; the registry does not change during one modelled emission);
`hasSig` — whether a governing signal exists; the `Bool` is the current
value of the signal's `cancelled` flag.  Returns the promise outcome
(`Except.error v` models rejection with `v`), the list of listeners invoked,
and the values forwarded by detached `emit('error', v)` calls, in order. -/
def emitLoop (env : ListenerEnv V) (isErr : Bool) (errAvail : Bool)
    (hasSig : Bool) : Bool → List Entry → Except V Bool × List Nat × List V
  | _, [] => (Except.ok true, [], [])
  | cancelled, e :: rest =>
    match env.throws e.fn with
    | some v =>
      if isErr || !errAvail then
        (Except.error v, [e.fn], [])
      else
        let c2 := cancelled || env.sets e.fn
        if hasSig && c2 then
          (Except.ok true, [e.fn], [v])
        else
          let r := emitLoop env isErr errAvail hasSig c2 rest
          (r.1, e.fn :: r.2.1, v :: r.2.2)
    | none =>
      let c2 := cancelled || env.sets e.fn
      if hasSig && c2 then
        (Except.ok true, [e.fn], [])
      else
        let r := emitLoop env isErr errAvail hasSig c2 rest
        (r.1, e.fn :: r.2.1, r.2.2)

/-- Condition under which a caught listener error is funnelled instead of
re-thrown: `const errorSet = this.listenerMap['error']` exists and
`errorSet.listeners.length !== 0`. -/
def errReady (reg : Registry) : Bool :=
  match lookupSet reg "error" with
  | none => false
  | some s => decide (s.listeners.length ≠ 0)

/-- `emitImpl(eventName, ...args)`.  Only `args[0]` is ever inspected by the
engine (for the governing signal), so the model takes it alone.  Returns the
promise outcome, the invocation trace, and the detached error-channel
forwards. -/
def emitRun (env : ListenerEnv V) (reg : Registry) (name : String)
    (first : Option JSArg) : Except V Bool × List Nat × List V :=
  match lookupSet reg name with
  | none => (Except.ok false, [], [])
  | some set =>
    let ev := govSignal first
    emitLoop env (decide (name = "error")) (errReady reg) ev.isSome
      (match ev with | some e => e.cancelled | none => false) set.listeners

/-! ### Helper lemmas about the dispatch loop and the registry -/

theorem emitLoop_ne_ok_false (env : ListenerEnv V) (ie ea hs c : Bool)
    (l : List Entry) : (emitLoop env ie ea hs c l).1 ≠ Except.ok false := by
  induction l generalizing c with
  | nil => simp [emitLoop]
  | cons e rest ih =>
    cases henv : env.throws e.fn with
    | some v =>
      by_cases hc : (ie || !ea) = true
      · simp [emitLoop, henv, hc]
      · by_cases hb : (hs && (c || env.sets e.fn)) = true
        · simp [emitLoop, henv, hc, hb]
        · simp only [emitLoop, henv, hc, hb, if_false]
          simpa using ih (c || env.sets e.fn)
    | none =>
      by_cases hb : (hs && (c || env.sets e.fn)) = true
      · simp [emitLoop, henv, hb]
      · simp only [emitLoop, henv, hb, if_false]
        simpa using ih (c || env.sets e.fn)

theorem emitLoop_no_signal_no_throw (env : ListenerEnv V) (ie ea c : Bool)
    (l : List Entry) (h : ∀ e ∈ l, env.throws e.fn = none) :
    emitLoop env ie ea false c l =
      (Except.ok true, l.map (fun e => e.fn), []) := by
  induction l generalizing c with
  | nil => simp [emitLoop]
  | cons e rest ih =>
    have he := h e (by simp)
    simp [emitLoop, he, ih _ (fun x hx => h x (by simp [hx]))]

theorem emitLoop_funnel (env : ListenerEnv V) (c : Bool) (l : List Entry) :
    emitLoop env false true false c l =
      (Except.ok true, l.map (fun e => e.fn),
       l.filterMap (fun e => env.throws e.fn)) := by
  induction l generalizing c with
  | nil => simp [emitLoop]
  | cons e rest ih =>
    cases henv : env.throws e.fn with
    | some v => simp [emitLoop, henv, ih, List.filterMap_cons]
    | none => simp [emitLoop, henv, ih, List.filterMap_cons]

theorem emitLoop_reject (env : ListenerEnv V) (ie ea : Bool)
    (hcond : (ie || !ea) = true) (c : Bool) (pre post : List Entry)
    (t : Entry) (v : V) (hpre : ∀ e ∈ pre, env.throws e.fn = none)
    (ht : env.throws t.fn = some v) :
    emitLoop env ie ea false c (pre ++ t :: post) =
      (Except.error v, pre.map (fun e => e.fn) ++ [t.fn], []) := by
  induction pre generalizing c with
  | nil => simp [emitLoop, ht, hcond]
  | cons e rest ih =>
    have he := hpre e (by simp)
    simp [emitLoop, he, ih _ (fun x hx => hpre x (by simp [hx]))]

theorem emitLoop_cancel (env : ListenerEnv V) (ie ea : Bool)
    (pre post : List Entry) (a : Entry)
    (hpre : ∀ e ∈ pre, env.throws e.fn = none ∧ env.sets e.fn = false)
    (ha : env.throws a.fn = none) (hset : env.sets a.fn = true) :
    emitLoop env ie ea true false (pre ++ a :: post) =
      (Except.ok true, pre.map (fun e => e.fn) ++ [a.fn], []) := by
  induction pre with
  | nil => simp [emitLoop, ha, hset]
  | cons e rest ih =>
    have he := hpre e (by simp)
    simp [emitLoop, he.1, he.2, ih (fun x hx => hpre x (by simp [hx]))]

theorem emitLoop_precancelled (env : ListenerEnv V) (ie ea : Bool)
    (a : Entry) (rest : List Entry) (ha : env.throws a.fn = none) :
    emitLoop env ie ea true true (a :: rest) = (Except.ok true, [a.fn], []) := by
  simp [emitLoop, ha]

theorem lookupSet_mem (reg : Registry) (k : String) (s : EventListenerSet)
    (h : lookupSet reg k = some s) : (k, s) ∈ reg := by
  induction reg with
  | nil => simp [lookupSet] at h
  | cons p rest ih =>
    cases p with
    | mk a b =>
      by_cases hp : a = k
      · subst hp
        simp [lookupSet] at h
        subst h
        exact List.mem_cons_self _ _
      · simp [lookupSet, hp] at h
        exact List.mem_cons_of_mem _ (ih h)

theorem mem_setKey (reg : Registry) (k : String) (s : EventListenerSet)
    (q : String × EventListenerSet) (h : q ∈ setKey reg k s) :
    q ∈ reg ∨ q = (k, s) := by
  induction reg with
  | nil =>
    simp [setKey] at h
    right
    exact h
  | cons p rest ih =>
    by_cases hp : p.1 = k
    · simp [setKey, hp] at h
      rcases h with h | h
      · right
        exact h
      · left
        exact List.mem_cons_of_mem _ h
    · simp only [setKey, hp, if_false, List.mem_cons] at h
      rcases h with h | h
      · left
        simp [h]
      · rcases ih h with h2 | h2
        · left
          exact List.mem_cons_of_mem _ h2
        · right
          exact h2

theorem mem_eraseKey (reg : Registry) (k : String)
    (q : String × EventListenerSet) (h : q ∈ eraseKey reg k) : q ∈ reg := by
  induction reg with
  | nil => simp [eraseKey] at h
  | cons p rest ih =>
    by_cases hp : p.1 = k
    · simp only [eraseKey, hp, if_pos] at h
      exact List.mem_cons_of_mem _ h
    · simp only [eraseKey, hp, if_false, List.mem_cons] at h
      rcases h with h | h
      · simp [h]
      · exact List.mem_cons_of_mem _ (ih h)

theorem setKey_lookup_self (reg : Registry) (k : String)
    (s : EventListenerSet) (h : lookupSet reg k = some s) :
    setKey reg k s = reg := by
  induction reg with
  | nil => simp [lookupSet] at h
  | cons p rest ih =>
    cases p with
    | mk a b =>
      by_cases hp : a = k
      · subst hp
        simp [lookupSet] at h
        simp [setKey, h]
      · simp [lookupSet, hp] at h
        simp [setKey, hp, ih h]

/-! ### Claim theorems: dispatch engine -/

/-- C1: for every emitter and event name, `emit` resolves `true` iff at least
one listener was registered for the name at call time (over a registry in
which no empty listener set persists, which every API operation maintains);
when no listener set exists it resolves `false`, invokes no listener and
fires no lifecycle or error-channel signal. -/
theorem emit_true_iff_listener_exists (env : ListenerEnv V) (reg : Registry)
    (name : String) (first : Option JSArg)
    (hwf : ∀ p ∈ reg, p.2.listeners ≠ []) :
    (∀ b, (emitRun env reg name first).1 = Except.ok b →
        (b = true ↔ ∃ s, lookupSet reg name = some s ∧ s.listeners ≠ [])) ∧
    (lookupSet reg name = none →
        emitRun env reg name first = (Except.ok false, [], [])) := by
  constructor
  · intro b hb
    cases hlk : lookupSet reg name with
    | none =>
      simp [emitRun, hlk] at hb
      subst hb
      simp [hlk]
    | some s =>
      cases b with
      | false =>
        exfalso
        apply emitLoop_ne_ok_false env (decide (name = "error")) (errReady reg)
          (govSignal first).isSome
          (match govSignal first with | some e => e.cancelled | none => false)
          s.listeners
        rw [← hb]
        simp [emitRun, hlk]
      | true =>
        simp only [true_iff]
        exact ⟨s, rfl, hwf _ (lookupSet_mem _ _ _ hlk)⟩
  · intro hlk
    simp [emitRun, hlk]

def envW1 : ListenerEnv Nat := ⟨fun _ => none, fun _ => false⟩

def regW1 : Registry := [("x", ⟨[⟨5, ListenerType.ACTIVE⟩], 1⟩)]

/-- Witness for C1 at a concrete registry with one listener on `"x"`. -/
theorem emit_true_iff_listener_exists_witness :
    (∀ b, (emitRun envW1 regW1 "x" none).1 = Except.ok b →
        (b = true ↔ ∃ s, lookupSet regW1 "x" = some s ∧ s.listeners ≠ [])) ∧
    (lookupSet regW1 "x" = none →
        emitRun envW1 regW1 "x" none = (Except.ok false, [], [])) :=
  emit_true_iff_listener_exists envW1 regW1 "x" none (by decide)

/-- C3: if a listener throws while the emitted event is itself `"error"`, or
while the registry has no non-empty `"error"` set, the active emit call
rejects with the same unwrapped thrown value, no remaining listener of the
emission is invoked, and no detached error forward is fired.  (Stated for
emissions without a governing signal, as in the claim's scenario.) -/
theorem emit_rejects_unfunneled (env : ListenerEnv V) (reg : Registry)
    (name : String) (first : Option JSArg) (s : EventListenerSet)
    (pre post : List Entry) (t : Entry) (v : V)
    (hs : lookupSet reg name = some s)
    (hsplit : s.listeners = pre ++ t :: post)
    (hpre : ∀ e ∈ pre, env.throws e.fn = none)
    (ht : env.throws t.fn = some v)
    (herr : name = "error" ∨ errReady reg = false)
    (hsig : govSignal first = none) :
    emitRun env reg name first =
      (Except.error v, pre.map (fun e => e.fn) ++ [t.fn], []) := by
  have hcond : (decide (name = "error") || !errReady reg) = true := by
    rcases herr with h | h <;> simp [h]
  simp only [emitRun, hs, hsig, hsplit, Option.isSome_none]
  exact emitLoop_reject env _ _ hcond _ pre post t v hpre ht

def envW3 : ListenerEnv Nat :=
  ⟨fun i => if i = 1 then some 99 else none, fun _ => false⟩

def regW3 : Registry :=
  [("x", ⟨[⟨1, ListenerType.ACTIVE⟩, ⟨2, ListenerType.ACTIVE⟩], 2⟩)]

/-- Witness for C3: two listeners on `"x"`, no `"error"` set, the first
throws `99`; `emit("x")` rejects with `99` and listener `2` never runs. -/
theorem emit_rejects_unfunneled_witness :
    emitRun envW3 regW3 "x" none = (Except.error 99, [1], []) :=
  emit_rejects_unfunneled envW3 regW3 "x" none
    ⟨[⟨1, ListenerType.ACTIVE⟩, ⟨2, ListenerType.ACTIVE⟩], 2⟩
    [] [⟨2, ListenerType.ACTIVE⟩] ⟨1, ListenerType.ACTIVE⟩ 99
    rfl rfl (by intro e he; cases he) rfl (Or.inr rfl) rfl

theorem emitLoop_ok_true (env : ListenerEnv V) (hs c : Bool)
    (l : List Entry) : (emitLoop env false true hs c l).1 = Except.ok true := by
  induction l generalizing c with
  | nil => simp [emitLoop]
  | cons e rest ih =>
    cases henv : env.throws e.fn with
    | some v =>
      by_cases hb : (hs && (c || env.sets e.fn)) = true
      · simp [emitLoop, henv, hb]
      · simp [emitLoop, henv, hb, ih]
    | none =>
      by_cases hb : (hs && (c || env.sets e.fn)) = true
      · simp [emitLoop, henv, hb]
      · simp [emitLoop, henv, hb, ih]

theorem emitLoop_forwards (env : ListenerEnv V) (hs c : Bool)
    (l : List Entry) :
    (emitLoop env false true hs c l).2.2 =
      ((emitLoop env false true hs c l).2.1).filterMap env.throws := by
  induction l generalizing c with
  | nil => simp [emitLoop]
  | cons e rest ih =>
    cases henv : env.throws e.fn with
    | some v =>
      by_cases hb : (hs && (c || env.sets e.fn)) = true
      · simp [emitLoop, henv, hb, List.filterMap_cons]
      · simp [emitLoop, henv, hb, List.filterMap_cons, ih]
    | none =>
      by_cases hb : (hs && (c || env.sets e.fn)) = true
      · simp [emitLoop, henv, hb, List.filterMap_cons]
      · simp [emitLoop, henv, hb, List.filterMap_cons, ih]

theorem emitLoop_funnel_no_cancel (env : ListenerEnv V) (hs : Bool)
    (l : List Entry) (hsets : ∀ e ∈ l, env.sets e.fn = false) :
    emitLoop env false true hs false l =
      (Except.ok true, l.map (fun e => e.fn),
       l.filterMap (fun e => env.throws e.fn)) := by
  induction l with
  | nil => simp [emitLoop]
  | cons e rest ih =>
    have he := hsets e (by simp)
    cases henv : env.throws e.fn with
    | some v =>
      simp [emitLoop, henv, he, List.filterMap_cons,
        ih (fun x hx => hsets x (by simp [hx]))]
    | none =>
      simp [emitLoop, henv, he, List.filterMap_cons,
        ih (fun x hx => hsets x (by simp [hx]))]

def regW4 : Registry :=
  [("x", ⟨[⟨1, ListenerType.ACTIVE⟩, ⟨2, ListenerType.ACTIVE⟩], 2⟩),
   ("error", ⟨[⟨9, ListenerType.ACTIVE⟩], 1⟩)]

def envC4 : ListenerEnv Nat :=
  ⟨fun i => if i = 1 then some 99 else none, fun i => decide (i = 1)⟩

/-- Counterexample for C4 as stated: listener 1 of `"x"` sets the governing
signal's `cancelled` flag and then throws `99` while an `"error"` listener
is registered; the thrown value IS funneled and `emit` resolves `true`, but
the emission does not continue to the next listener of the original event —
the cancellation check runs after the catch, so the loop breaks and
listener 2 of `"x"` is never invoked. -/
theorem emit_funnel_cancel_counterexample :
    errReady regW4 = true ∧
    lookupSet regW4 "x" =
      some ⟨[⟨1, ListenerType.ACTIVE⟩, ⟨2, ListenerType.ACTIVE⟩], 2⟩ ∧
    emitRun envC4 regW4 "x"
      (some (JSArg.ev ⟨"sig", JSVal.vBool true, false⟩)) =
      (Except.ok true, [1], [99]) :=
  ⟨rfl, rfl, rfl⟩

/-- C4 (amended): if a listener of an event other than `"error"` throws
while at least one `"error"` listener is registered, the emission never
rejects — it resolves `true` — and the thrown value of every invoked
listener is forwarded unchanged, in order, as a detached (not awaited)
`emit("error", v)`; the emission continues to the next listener of the
original event unless a governing signal's `cancelled` flag is set when the
post-catch cancellation check runs: with no governing signal every listener
of the original event is invoked, and likewise with a governing signal that
starts uncancelled and whose flag no listener sets. -/
theorem emit_funnels_resolves_true (env : ListenerEnv V) (reg : Registry)
    (name : String) (first : Option JSArg) (s : EventListenerSet)
    (hs : lookupSet reg name = some s)
    (hname : name ≠ "error")
    (herr : errReady reg = true) :
    (emitRun env reg name first).1 = Except.ok true ∧
    (emitRun env reg name first).2.2 =
      ((emitRun env reg name first).2.1).filterMap env.throws ∧
    (govSignal first = none →
      (emitRun env reg name first).2.1 = s.listeners.map (fun e => e.fn)) ∧
    (∀ e, govSignal first = some e → e.cancelled = false →
      (∀ x ∈ s.listeners, env.sets x.fn = false) →
      (emitRun env reg name first).2.1 = s.listeners.map (fun e => e.fn)) := by
  have hd : decide (name = "error") = false := by
    simp [hname]
  refine ⟨?_, ?_, ?_, ?_⟩
  · simp only [emitRun, hs, hd, herr]
    exact emitLoop_ok_true env _ _ _
  · simp only [emitRun, hs, hd, herr]
    exact emitLoop_forwards env _ _ _
  · intro hsig
    simp only [emitRun, hs, hd, herr, hsig, Option.isSome_none]
    rw [emitLoop_funnel]
  · intro e hsig hc hsets
    simp only [emitRun, hs, hd, herr, hsig, Option.isSome_some, hc]
    rw [emitLoop_funnel_no_cancel env _ _ hsets]

/-- Witness for the amended C4: listener `1` on `"x"` throws `99` while an
`"error"` listener exists and no signal governs; both listeners of `"x"`
run, the emission resolves `true`, and `99` is the one forwarded value. -/
theorem emit_funnels_resolves_true_witness :
    (emitRun envW3 regW4 "x" none).1 = Except.ok true ∧
    (emitRun envW3 regW4 "x" none).2.2 =
      ((emitRun envW3 regW4 "x" none).2.1).filterMap envW3.throws ∧
    (govSignal none = none →
      (emitRun envW3 regW4 "x" none).2.1 = [1, 2]) ∧
    (∀ e, govSignal none = some e → e.cancelled = false →
      (∀ x ∈ [(⟨1, ListenerType.ACTIVE⟩ : Entry), ⟨2, ListenerType.ACTIVE⟩],
        envW3.sets x.fn = false) →
      (emitRun envW3 regW4 "x" none).2.1 = [1, 2]) :=
  emit_funnels_resolves_true envW3 regW4 "x" none
    ⟨[⟨1, ListenerType.ACTIVE⟩, ⟨2, ListenerType.ACTIVE⟩], 2⟩
    rfl (by decide) rfl

/-- C5: when a governing cancellable signal (initially uncancelled) is the
first emit argument and a listener sets its `cancelled` flag after the
earlier listeners ran without throwing or cancelling, no further listener of
the emission is invoked and emit still resolves `true`. -/
theorem emit_cancel_short_circuit (env : ListenerEnv V) (reg : Registry)
    (name : String) (first : Option JSArg) (e : EventObj)
    (s : EventListenerSet) (pre post : List Entry) (a : Entry)
    (hsig : govSignal first = some e)
    (he : e.cancelled = false)
    (hs : lookupSet reg name = some s)
    (hsplit : s.listeners = pre ++ a :: post)
    (hpre : ∀ x ∈ pre, env.throws x.fn = none ∧ env.sets x.fn = false)
    (ha : env.throws a.fn = none)
    (hset : env.sets a.fn = true) :
    emitRun env reg name first =
      (Except.ok true, pre.map (fun x => x.fn) ++ [a.fn], []) := by
  simp only [emitRun, hs, hsig, Option.isSome_some, hsplit, he]
  exact emitLoop_cancel env _ _ pre post a hpre ha hset

def envW5 : ListenerEnv Nat := ⟨fun _ => none, fun i => decide (i = 1)⟩

/-- Witness for C5 (Scenario E): two listeners on `"x"`, the first sets the
signal's `cancelled` flag; the second is never invoked and emit resolves
`true`. -/
theorem emit_cancel_short_circuit_witness :
    emitRun envW5 regW3 "x"
      (some (JSArg.ev ⟨"sig", JSVal.vBool true, false⟩)) =
      (Except.ok true, [1], []) :=
  emit_cancel_short_circuit envW5 regW3 "x"
    (some (JSArg.ev ⟨"sig", JSVal.vBool true, false⟩))
    ⟨"sig", JSVal.vBool true, false⟩
    ⟨[⟨1, ListenerType.ACTIVE⟩, ⟨2, ListenerType.ACTIVE⟩], 2⟩
    [] [⟨2, ListenerType.ACTIVE⟩] ⟨1, ListenerType.ACTIVE⟩
    rfl rfl rfl rfl (by intro x hx; cases hx) rfl rfl

/-- C10: when the governing signal's `cancelled` flag is already `true`
before `emit` is called and the event has at least one listener, the first
listener is still invoked (exactly once — the cancellation check runs only
after each listener) and emit resolves `true`, invoking nobody else. -/
theorem emit_precancelled_invokes_first (env : ListenerEnv V)
    (reg : Registry) (name : String) (first : Option JSArg) (e : EventObj)
    (s : EventListenerSet) (a : Entry) (rest : List Entry)
    (hsig : govSignal first = some e)
    (he : e.cancelled = true)
    (hs : lookupSet reg name = some s)
    (hsplit : s.listeners = a :: rest)
    (ha : env.throws a.fn = none) :
    emitRun env reg name first = (Except.ok true, [a.fn], []) := by
  simp only [emitRun, hs, hsig, Option.isSome_some, hsplit, he]
  exact emitLoop_precancelled env _ _ a rest ha

/-- Witness for C10: a signal with `cancelled = true` is passed to
`emit("x")` with two listeners registered; listener `1` runs once, listener
`2` never, and emit resolves `true`. -/
theorem emit_precancelled_invokes_first_witness :
    emitRun envW1 regW3 "x"
      (some (JSArg.ev ⟨"sig", JSVal.vBool true, true⟩)) =
      (Except.ok true, [1], []) :=
  emit_precancelled_invokes_first envW1 regW3 "x"
    (some (JSArg.ev ⟨"sig", JSVal.vBool true, true⟩))
    ⟨"sig", JSVal.vBool true, true⟩
    ⟨[⟨1, ListenerType.ACTIVE⟩, ⟨2, ListenerType.ACTIVE⟩], 2⟩
    ⟨1, ListenerType.ACTIVE⟩ [⟨2, ListenerType.ACTIVE⟩]
    rfl rfl rfl rfl rfl

/-! ### Claim C2: tiered dispatch order -/

/-- Effect on the registry of a sequence of `onImpl` calls for one event
name: each element of `ops` is a (listener, tier-argument) pair, applied in
order. -/
def regAfterOps (reg : Registry) (name : String)
    (ops : List (Nat × TierArg)) : Registry :=
  ops.foldl (fun r p => (onImpl r name p.1 p.2).1) reg

/-- Registration calls of `ops` whose normalised tier is `t`, as the entries
they insert, in call order. -/
def tierEntries (ops : List (Nat × Nat)) (t : Nat) : List Entry :=
  (ops.filter (fun p => decide (p.2 = t))).map (fun p => ⟨p.1, p.2⟩)

/-- The listener order the spec predicts: EARLY block (most recently
prepended first), then ACTIVE block in registration order, then PASSIVE
block in registration order. -/
def orderedListeners (ops : List (Nat × Nat)) : List Entry :=
  (tierEntries ops ListenerType.EARLY).reverse ++
    tierEntries ops ListenerType.ACTIVE ++
    tierEntries ops ListenerType.PASSIVE

/-- The `passiveIdx` the spec predicts: the number of non-passive
registrations. -/
def orderedIdx (ops : List (Nat × Nat)) : Nat :=
  (tierEntries ops ListenerType.EARLY).length +
    (tierEntries ops ListenerType.ACTIVE).length

/-- Tier arguments normalised to numbers, paired with their listeners. -/
def normOps (ops : List (Nat × TierArg)) : List (Nat × Nat) :=
  ops.map (fun p => (p.1, tierNum p.2))

theorem lookupSet_setKey_self (reg : Registry) (k : String)
    (s : EventListenerSet) : lookupSet (setKey reg k s) k = some s := by
  induction reg with
  | nil => simp [setKey, lookupSet]
  | cons p rest ih =>
    by_cases hp : p.1 = k
    · simp [setKey, hp, lookupSet]
    · simp [setKey, hp, lookupSet, ih]

theorem lookupSet_regAfterOps (reg : Registry) (name : String)
    (ops : List (Nat × TierArg)) :
    lookupSet (regAfterOps reg name ops) name =
      (normOps ops).foldl (fun s? p => some (onUpdate s? p.1 p.2))
        (lookupSet reg name) := by
  induction ops generalizing reg with
  | nil => simp [regAfterOps, normOps]
  | cons p rest ih =>
    show lookupSet (regAfterOps (onImpl reg name p.1 p.2).1 name rest) name = _
    rw [ih]
    simp [normOps, onImpl, lookupSet_setKey_self]

theorem buildSet_spec (ops : List (Nat × Nat))
    (hvalid : ∀ p ∈ ops, p.2 < 3) (hne : ops ≠ []) :
    ops.foldl (fun s? p => some (onUpdate s? p.1 p.2)) none =
      some ⟨orderedListeners ops, orderedIdx ops⟩ := by
  induction ops using List.reverseRecOn with
  | nil => exact absurd rfl hne
  | append_singleton ops p ih =>
    have hp : p.2 = 0 ∨ p.2 = 1 ∨ p.2 = 2 := by
      have := hvalid p (by simp)
      omega
    rw [List.foldl_append]
    cases hops : ops with
    | nil =>
      subst hops
      simp only [List.foldl_nil]
      rcases hp with h | h | h <;>
        simp [onUpdate, orderedListeners, orderedIdx, tierEntries, h,
          ListenerType.ACTIVE, ListenerType.PASSIVE, ListenerType.EARLY]
    | cons q qs =>
      rw [← hops]
      have hne2 : ops ≠ [] := by simp [hops]
      rw [ih (fun x hx => hvalid x (by simp [hx])) hne2]
      have hlenE :
          ((tierEntries ops ListenerType.EARLY).reverse ++
            tierEntries ops ListenerType.ACTIVE).length = orderedIdx ops := by
        simp [orderedIdx]
      have hsplit :
          orderedListeners ops =
            ((tierEntries ops ListenerType.EARLY).reverse ++
              tierEntries ops ListenerType.ACTIVE) ++
              tierEntries ops ListenerType.PASSIVE := by
        simp [orderedListeners]
      rcases hp with h | h | h
      · -- ACTIVE: insert at the tier boundary
        simp only [List.foldl_cons, List.foldl_nil, onUpdate, h,
          ListenerType.ACTIVE, ListenerType.EARLY, ListenerType.PASSIVE,
          Option.some_inj, EventListenerSet.mk.injEq, if_true, reduceIte]
        refine ⟨?_, ?_⟩
        · rw [hsplit, List.take_left' hlenE, List.drop_left' hlenE]
          simp [orderedListeners, tierEntries, List.filter_append, h,
            ListenerType.ACTIVE, ListenerType.PASSIVE, ListenerType.EARLY]
        · simp [orderedIdx, tierEntries, List.filter_append, h,
            ListenerType.ACTIVE, ListenerType.PASSIVE, ListenerType.EARLY]
          omega
      · -- PASSIVE: push at the end
        simp only [List.foldl_cons, List.foldl_nil, onUpdate, h,
          ListenerType.ACTIVE, ListenerType.EARLY, ListenerType.PASSIVE,
          Option.some_inj]
        rw [if_neg (by decide), if_neg (by decide)]
        simp only [if_true]
        simp only [EventListenerSet.mk.injEq]
        refine ⟨?_, ?_⟩
        · simp [orderedListeners, tierEntries, List.filter_append, h,
            ListenerType.ACTIVE, ListenerType.PASSIVE, ListenerType.EARLY]
        · simp [orderedIdx, tierEntries, List.filter_append, h,
            ListenerType.ACTIVE, ListenerType.PASSIVE, ListenerType.EARLY]
      · -- EARLY: unshift at the front
        simp only [List.foldl_cons, List.foldl_nil, onUpdate, h,
          ListenerType.ACTIVE, ListenerType.EARLY, ListenerType.PASSIVE,
          Option.some_inj]
        rw [if_neg (by decide)]
        simp only [if_true]
        simp only [EventListenerSet.mk.injEq]
        refine ⟨?_, ?_⟩
        · simp [orderedListeners, tierEntries, List.filter_append, h,
            ListenerType.ACTIVE, ListenerType.PASSIVE, ListenerType.EARLY,
            List.reverse_append]
        · simp [orderedIdx, tierEntries, List.filter_append, h,
            ListenerType.ACTIVE, ListenerType.PASSIVE, ListenerType.EARLY]
          omega

/-- C2: for every sequence of registration calls (`on` / `addListener` /
`addPassiveListener` / `prependListener`, i.e. `onImpl` with any valid tier
argument) on one event name, the resulting listener list — and therefore the
order `emit` invokes the listeners in — is the EARLY block (most recently
prepended first), then the ACTIVE block in registration order, then the
PASSIVE block in registration order, regardless of the interleaving;
`passiveIdx` ends at the size of the non-passive blocks. -/
theorem listener_dispatch_order (reg : Registry) (name : String)
    (ops : List (Nat × TierArg)) (env : ListenerEnv V)
    (hstart : lookupSet reg name = none)
    (hvalid : ∀ p ∈ ops, tierNum p.2 < 3)
    (hne : ops ≠ [])
    (henv : ∀ i, env.throws i = none) :
    lookupSet (regAfterOps reg name ops) name =
      some ⟨orderedListeners (normOps ops), orderedIdx (normOps ops)⟩ ∧
    (emitRun env (regAfterOps reg name ops) name none).2.1 =
      (orderedListeners (normOps ops)).map (fun e => e.fn) := by
  have hvalid2 : ∀ p ∈ normOps ops, p.2 < 3 := by
    intro p hp
    rcases List.mem_map.mp hp with ⟨q, hq, rfl⟩
    exact hvalid q hq
  have hne2 : normOps ops ≠ [] := by
    simp [normOps]
    exact hne
  have hlook : lookupSet (regAfterOps reg name ops) name =
      some ⟨orderedListeners (normOps ops), orderedIdx (normOps ops)⟩ := by
    rw [lookupSet_regAfterOps, hstart]
    exact buildSet_spec (normOps ops) hvalid2 hne2
  refine ⟨hlook, ?_⟩
  simp only [emitRun, hlook, govSignal, Option.isSome_none]
  rw [emitLoop_no_signal_no_throw]
  intro e _
  exact henv e.fn

def opsW2 : List (Nat × TierArg) :=
  [(1, TierArg.num ListenerType.PASSIVE), (2, TierArg.num ListenerType.ACTIVE),
   (3, TierArg.bool true)]

/-- Witness for C2 (Scenario B, with the EARLY listener registered through
the legacy boolean): passive 1, then active 2, then prepended 3 produce the
listener list 3,2,1 with `passiveIdx` 2, and emit invokes 3, 2, 1 in that
order. -/
theorem listener_dispatch_order_witness :
    lookupSet (regAfterOps [] "x" opsW2) "x" =
      some ⟨[⟨3, 2⟩, ⟨2, 0⟩, ⟨1, 1⟩], 2⟩ ∧
    (emitRun envW1 (regAfterOps [] "x" opsW2) "x" none).2.1 = [3, 2, 1] :=
  listener_dispatch_order [] "x" opsW2 envW1 rfl (by decide) (by decide)
    (fun _ => rfl)

/-! ### Claim C6: registry invariant -/

/-- The spec's ListenerSet invariant: `passiveIdx` equals the number of
non-passive entries, entries below `passiveIdx` are non-passive, entries
from `passiveIdx` on are passive, and the set is non-empty. -/
def SetWF (s : EventListenerSet) : Prop :=
  s.passiveIdx ≤ s.listeners.length ∧
  s.passiveIdx =
    (s.listeners.filter (fun e => decide (e.tier ≠ ListenerType.PASSIVE))).length ∧
  (∀ e ∈ s.listeners.take s.passiveIdx, e.tier ≠ ListenerType.PASSIVE) ∧
  (∀ e ∈ s.listeners.drop s.passiveIdx, e.tier = ListenerType.PASSIVE) ∧
  s.listeners ≠ []

/-- Equivalent split form of `SetWF`: the listener list is a non-passive
block followed by a passive block with `passiveIdx` at the boundary. -/
def SplitWF (s : EventListenerSet) : Prop :=
  ∃ A B, s.listeners = A ++ B ∧
    (∀ e ∈ A, e.tier ≠ ListenerType.PASSIVE) ∧
    (∀ e ∈ B, e.tier = ListenerType.PASSIVE) ∧
    s.passiveIdx = A.length ∧ s.listeners ≠ []

/-- The registry invariant of the spec: every stored ListenerSet is
well-formed (and in particular non-empty). -/
def RegWF (reg : Registry) : Prop := ∀ p ∈ reg, SetWF p.2

theorem setWF_iff_splitWF (s : EventListenerSet) : SetWF s ↔ SplitWF s := by
  constructor
  · rintro ⟨hle, hcount, htake, hdrop, hne⟩
    refine ⟨s.listeners.take s.passiveIdx, s.listeners.drop s.passiveIdx,
      (List.take_append_drop _ _).symm, htake, hdrop, ?_, hne⟩
    rw [List.length_take]
    omega
  · rintro ⟨A, B, hAB, hA, hB, hidx, hne⟩
    have hfA : A.filter (fun e => decide (e.tier ≠ ListenerType.PASSIVE)) = A :=
      List.filter_eq_self.mpr (fun e he => by simpa using hA e he)
    have hfB : B.filter (fun e => decide (e.tier ≠ ListenerType.PASSIVE)) = [] :=
      List.filter_eq_nil_iff.mpr (fun e he => by simpa using hB e he)
    have htk : s.listeners.take s.passiveIdx = A := by
      rw [hAB, hidx]
      exact List.take_left A B
    have hdr : s.listeners.drop s.passiveIdx = B := by
      rw [hAB, hidx]
      exact List.drop_left A B
    refine ⟨?_, ?_, ?_, ?_, hne⟩
    · rw [hAB, hidx, List.length_append]
      omega
    · rw [hAB, List.filter_append, hfA, hfB, hidx]
      simp
    · rw [htk]
      exact hA
    · rw [hdr]
      exact hB

theorem onUpdate_splitWF (set? : Option EventListenerSet) (l t : Nat)
    (ht : t < 3) (hs : ∀ s, set? = some s → SplitWF s) :
    SplitWF (onUpdate set? l t) := by
  have ht3 : t = 0 ∨ t = 1 ∨ t = 2 := by omega
  cases set? with
  | none =>
    rcases ht3 with h | h | h <;>
      subst h <;>
      simp only [onUpdate, ListenerType.PASSIVE, ListenerType.ACTIVE,
        ListenerType.EARLY]
    · exact ⟨[⟨l, 0⟩], [], by simp, by simp [ListenerType.PASSIVE],
        by simp, by simp, by simp⟩
    · exact ⟨[], [⟨l, 1⟩], by simp, by simp,
        by simp [ListenerType.PASSIVE], by simp, by simp⟩
    · exact ⟨[⟨l, 2⟩], [], by simp, by simp [ListenerType.PASSIVE],
        by simp, by simp, by simp⟩
  | some s =>
    obtain ⟨A, B, hAB, hA, hB, hidx, hne⟩ := hs s rfl
    have htk : s.listeners.take s.passiveIdx = A := by
      rw [hAB, hidx]
      exact List.take_left A B
    have hdr : s.listeners.drop s.passiveIdx = B := by
      rw [hAB, hidx]
      exact List.drop_left A B
    rcases ht3 with h | h | h <;> subst h
    · -- ACTIVE
      refine ⟨A ++ [⟨l, 0⟩], B, ?_, ?_, hB, ?_, ?_⟩
      · simp [onUpdate, ListenerType.ACTIVE, ListenerType.PASSIVE,
          ListenerType.EARLY, htk, hdr]
      · intro e he
        rcases List.mem_append.mp he with h | h
        · exact hA e h
        · simp at h
          simp [h, ListenerType.PASSIVE]
      · simp [onUpdate, ListenerType.ACTIVE, ListenerType.PASSIVE,
          ListenerType.EARLY, hidx]
      · simp [onUpdate, ListenerType.ACTIVE, ListenerType.PASSIVE,
          ListenerType.EARLY]
    · -- PASSIVE
      refine ⟨A, B ++ [⟨l, 1⟩], ?_, hA, ?_, ?_, ?_⟩
      · simp [onUpdate, ListenerType.ACTIVE, ListenerType.PASSIVE,
          ListenerType.EARLY, hAB]
      · intro e he
        rcases List.mem_append.mp he with h | h
        · exact hB e h
        · simp at h
          simp [h, ListenerType.PASSIVE]
      · simp [onUpdate, ListenerType.ACTIVE, ListenerType.PASSIVE,
          ListenerType.EARLY, hidx]
      · simp [onUpdate, ListenerType.ACTIVE, ListenerType.PASSIVE,
          ListenerType.EARLY]
    · -- EARLY
      refine ⟨⟨l, 2⟩ :: A, B, ?_, ?_, hB, ?_, ?_⟩
      · simp [onUpdate, ListenerType.ACTIVE, ListenerType.PASSIVE,
          ListenerType.EARLY, hAB]
      · intro e he
        rcases List.mem_cons.mp he with h | h
        · simp [h, ListenerType.PASSIVE]
        · simpa [ListenerType.PASSIVE] using hA e h
      · simp [onUpdate, ListenerType.ACTIVE, ListenerType.PASSIVE,
          ListenerType.EARLY, hidx]
      · simp [onUpdate, ListenerType.ACTIVE, ListenerType.PASSIVE,
          ListenerType.EARLY]

theorem offSplice_splitWF (s : EventListenerSet) (i : Nat) (hs : SplitWF s)
    (hrest : s.listeners.take i ++ s.listeners.drop (i + 1) ≠ []) :
    SplitWF ⟨s.listeners.take i ++ s.listeners.drop (i + 1),
      if i < s.passiveIdx then s.passiveIdx - 1 else s.passiveIdx⟩ := by
  obtain ⟨A, B, hAB, hA, hB, hidx, _⟩ := hs
  by_cases hi : i < s.passiveIdx
  · -- the removed index lies in the non-passive block
    have hiA : i < A.length := by omega
    refine ⟨A.take i ++ A.drop (i + 1), B, ?_, ?_, hB, ?_, hrest⟩
    · show s.listeners.take i ++ s.listeners.drop (i + 1) = _
      rw [hAB, List.take_append_eq_append_take, List.drop_append_eq_append_drop]
      have h1 : i - A.length = 0 := by omega
      have h2 : i + 1 - A.length = 0 := by omega
      rw [h1, h2]
      simp
    · intro e he
      rcases List.mem_append.mp he with h | h
      · exact hA e (List.mem_of_mem_take h)
      · exact hA e (List.mem_of_mem_drop h)
    · show (if i < s.passiveIdx then s.passiveIdx - 1 else s.passiveIdx) = _
      rw [if_pos hi, List.length_append, List.length_take, List.length_drop]
      omega
  · -- the removed index (if it hits anything) lies in the passive block
    have hiA : A.length ≤ i := by omega
    refine ⟨A, B.take (i - A.length) ++ B.drop (i - A.length + 1), ?_, hA,
      ?_, ?_, hrest⟩
    · show s.listeners.take i ++ s.listeners.drop (i + 1) = _
      rw [hAB, List.take_append_eq_append_take, List.drop_append_eq_append_drop]
      rw [List.take_of_length_le hiA, List.drop_eq_nil_of_le (by omega)]
      have h3 : i + 1 - A.length = i - A.length + 1 := by omega
      rw [h3]
      simp
    · intro e he
      rcases List.mem_append.mp he with h | h
      · exact hB e (List.mem_of_mem_take h)
      · exact hB e (List.mem_of_mem_drop h)
    · show (if i < s.passiveIdx then s.passiveIdx - 1 else s.passiveIdx) = _
      rw [if_neg hi]
      exact hidx

/-- C6: the registry invariant — `passiveIdx` equals the count of
non-passive entries, non-passive entries strictly precede index
`passiveIdx`, passive entries strictly follow, and no empty ListenerSet
persists — holds of the initial empty registry and is preserved by every
registration (`onImpl` with a valid tier argument) and by every removal
(`offImpl`, all three argument modes). -/
theorem registry_invariant_preserved (reg : Registry) (name : String)
    (l : Nat) (t : TierArg) (name? : Option String) (l? : Option Nat)
    (hreg : RegWF reg) (hvalid : tierNum t < 3) :
    RegWF [] ∧ RegWF (onImpl reg name l t).1 ∧ RegWF (offImpl reg name? l?).1 := by
  refine ⟨?_, ?_, ?_⟩
  · intro p hp
    cases hp
  · -- registration
    intro p hp
    rcases mem_setKey _ _ _ _ hp with h | h
    · exact hreg p h
    · rw [h]
      rw [setWF_iff_splitWF]
      apply onUpdate_splitWF _ _ _ hvalid
      intro s hlk
      rw [← setWF_iff_splitWF]
      exact hreg _ (lookupSet_mem _ _ _ hlk)
  · -- removal
    cases name? with
    | none =>
      intro p hp
      simp [offImpl, isFalsyName] at hp
    | some nm =>
      by_cases hf : nm.isEmpty
      · intro p hp
        simp [offImpl, isFalsyName, hf] at hp
      · cases l? with
        | none =>
          cases hlk : lookupSet reg nm with
          | none =>
            intro p hp
            simp only [offImpl, isFalsyName, hf, Bool.false_eq_true,
              if_false, hlk] at hp
            exact hreg p hp
          | some s =>
            intro p hp
            simp only [offImpl, isFalsyName, hf, Bool.false_eq_true,
              if_false, hlk] at hp
            exact hreg p (mem_eraseKey _ _ _ hp)
        | some li =>
          cases hlk : lookupSet reg nm with
          | none =>
            intro p hp
            simp only [offImpl, isFalsyName, hf, Bool.false_eq_true,
              if_false, hlk] at hp
            exact hreg p hp
          | some s =>
            cases hfd : s.listeners.findIdx? (fun e => decide (e.fn = li)) with
            | none =>
              intro p hp
              simp only [offImpl, isFalsyName, hf, Bool.false_eq_true,
                if_false, hlk, hfd] at hp
              exact hreg p hp
            | some i =>
              by_cases hlen :
                  (s.listeners.take i ++ s.listeners.drop (i + 1)).length = 0
              · intro p hp
                simp only [offImpl, isFalsyName, hf, Bool.false_eq_true,
                  if_false, hlk, hfd, hlen, if_pos] at hp
                exact hreg p (mem_eraseKey _ _ _ hp)
              · intro p hp
                simp only [offImpl, isFalsyName, hf, Bool.false_eq_true,
                  if_false, hlk, hfd, hlen, if_false] at hp
                rcases mem_setKey _ _ _ _ hp with h | h
                · exact hreg p h
                · rw [h]
                  rw [setWF_iff_splitWF]
                  apply offSplice_splitWF
                  · rw [← setWF_iff_splitWF]
                    exact hreg _ (lookupSet_mem _ _ _ hlk)
                  · intro hemp
                    exact hlen (by rw [hemp]; rfl)

instance (s : EventListenerSet) : Decidable (SetWF s) := by
  unfold SetWF
  infer_instance

instance (reg : Registry) : Decidable (RegWF reg) := by
  unfold RegWF
  infer_instance

def regW6 : Registry :=
  [("x", ⟨[⟨3, 2⟩, ⟨1, 0⟩, ⟨2, 1⟩], 2⟩), ("error", ⟨[⟨9, 0⟩], 1⟩)]

/-- Witness for C6: a concrete well-formed registry stays well-formed under
a registration on `"y"` and the single-listener removal of listener 1 from
`"x"`. -/
theorem registry_invariant_preserved_witness :
    RegWF [] ∧
    RegWF (onImpl regW6 "y" 4 (TierArg.num ListenerType.ACTIVE)).1 ∧
    RegWF (offImpl regW6 (some "x") (some 1)).1 :=
  registry_invariant_preserved regW6 "y" 4 (TierArg.num ListenerType.ACTIVE)
    (some "x") (some 1) (by decide) (by decide)

/-! ### Claims C7, C8, C9 -/

def regW7 : Registry := (onImpl [] "x" 1 (TierArg.num ListenerType.ACTIVE)).1

/-- Counterexample for C7: with listener 1 already registered on `"x"`, a
call `on("x", 2, 5)` with the invalid tier value 5 is not rejected (the
operation returns normally, still firing `newListener`) and does not behave
as ACTIVE either: the registry is left unchanged — listener 2 is not
inserted and `emit("x")` never invokes it — whereas the same call with tier
ACTIVE does change the registry. -/
theorem on_invalid_tier_counterexample :
    (onImpl regW7 "x" 2 (TierArg.num 5)).1 = regW7 ∧
    (onImpl regW7 "x" 2 (TierArg.num 5)).2 = [("x", 2)] ∧
    lookupSet (onImpl regW7 "x" 2 (TierArg.num 5)).1 "x" =
      some ⟨[⟨1, 0⟩], 1⟩ ∧
    (emitRun envW1 (onImpl regW7 "x" 2 (TierArg.num 5)).1 "x" none).2.1 = [1] ∧
    (onImpl regW7 "x" 2 (TierArg.num ListenerType.ACTIVE)).1 ≠ regW7 := by
  decide

/-- C7 amended: a call to `on`/`addListener` with a tier argument that is
neither a `ListenerType` member nor a boolean is never rejected and always
fires `newListener`; when no listener set exists yet for the name it creates
the set `{ listeners: [listener], passiveIdx: 1 }` (the same set ACTIVE
would create), but when a set already exists the `switch` matches no case
and the listener is silently not inserted: the registry is unchanged. -/
theorem on_invalid_tier_behavior (reg : Registry) (name : String) (l : Nat)
    (t : TierArg) (hinvalid : 3 ≤ tierNum t) :
    (lookupSet reg name = none →
      (onImpl reg name l t).1 = setKey reg name ⟨[⟨l, tierNum t⟩], 1⟩) ∧
    (∀ s, lookupSet reg name = some s → (onImpl reg name l t).1 = reg) ∧
    (onImpl reg name l t).2 = [(name, l)] := by
  have h0 : ¬(tierNum t = ListenerType.ACTIVE) := by
    simp only [ListenerType.ACTIVE]
    omega
  have h1 : ¬(tierNum t = ListenerType.PASSIVE) := by
    simp only [ListenerType.PASSIVE]
    omega
  have h2 : ¬(tierNum t = ListenerType.EARLY) := by
    simp only [ListenerType.EARLY]
    omega
  refine ⟨?_, ?_, rfl⟩
  · intro hlk
    simp [onImpl, onUpdate, hlk, h1]
  · intro s hlk
    simp [onImpl, onUpdate, hlk, h0, h1, h2, setKey_lookup_self _ _ _ hlk]

/-- Witness for the amended C7 at the invalid tier value 5 on the concrete
one-listener registry. -/
theorem on_invalid_tier_behavior_witness :
    (lookupSet regW7 "y" = none →
      (onImpl regW7 "y" 2 (TierArg.num 5)).1 =
        setKey regW7 "y" ⟨[⟨2, 5⟩], 1⟩) ∧
    (∀ s, lookupSet regW7 "y" = some s →
      (onImpl regW7 "y" 2 (TierArg.num 5)).1 = regW7) ∧
    (onImpl regW7 "y" 2 (TierArg.num 5)).2 = [("y", 2)] :=
  on_invalid_tier_behavior regW7 "y" 2 (TierArg.num 5) (by decide)

def evW8 : EventObj := ⟨"sig", JSVal.vNum 1, false⟩

/-- Counterexample for C8: the runtime check is truthiness, not strict
equality with `true` — an Event whose `cancellable` field is the number 1
satisfies `Event.isCancellable` and IS tracked as the governing signal
(here: listener 1 sets its `cancelled` flag and listener 2 is skipped),
contradicting the claim that only `cancellable === true` qualifies. -/
theorem signal_strict_true_counterexample :
    isCancellable (JSArg.ev evW8) = true ∧
    evW8.cancellable ≠ JSVal.vBool true ∧
    govSignal (some (JSArg.ev evW8)) = some evW8 ∧
    (emitRun envW5 regW3 "x" (some (JSArg.ev evW8))).2.1 = [1] := by
  decide

/-- C8 amended: a value passed as the first emit argument is tracked as the
governing signal iff it is an Event instance and its `cancellable` field is
truthy; any truthy value (such as the number 1 or a non-empty string)
qualifies, not only the boolean `true`. -/
theorem governing_signal_iff_truthy (a : JSArg) :
    (govSignal (some a)).isSome = isCancellable a ∧
    (isCancellable a = true ↔
      ∃ e, a = JSArg.ev e ∧ truthy e.cancellable = true) := by
  cases a with
  | ev e =>
    by_cases h : truthy e.cancellable <;>
      simp [govSignal, isCancellable, h]
  | other => simp [govSignal, isCancellable]

/-- C9: calling `off` with the empty string does not remove only the
listeners of event `""`; the event name is tested for falsiness, so
`off("")` takes the remove-all branch — exactly like `off()` — emitting
`removeListener` for every listener of every event and clearing the entire
registry, even though `on("", f)` stores `""` as an ordinary key and
`emit("")` dispatches to it normally. -/
theorem off_empty_string_clears_all (reg : Registry) (l? : Option Nat)
    (l : Nat) (env : ListenerEnv V) (henv : ∀ i, env.throws i = none) :
    offImpl reg (some "") l? = offImpl reg none none ∧
    (offImpl reg (some "") l?).1 = [] ∧
    (offImpl reg (some "") l?).2 =
      reg.flatMap (fun p => p.2.listeners.map fun e => (p.1, e.fn)) ∧
    lookupSet (onImpl reg "" l (TierArg.num ListenerType.ACTIVE)).1 "" =
      some (onUpdate (lookupSet reg "") l ListenerType.ACTIVE) ∧
    emitRun env (onImpl [] "" l (TierArg.num ListenerType.ACTIVE)).1 "" none =
      (Except.ok true, [l], []) := by
  have hE : ("" : String).isEmpty = true := rfl
  refine ⟨?_, ?_, ?_, ?_, ?_⟩
  · simp [offImpl, isFalsyName, hE]
  · simp [offImpl, isFalsyName, hE]
  · simp [offImpl, isFalsyName, hE]
  · simp [onImpl, tierNum, lookupSet_setKey_self]
  · have hlk : lookupSet (onImpl [] "" l (TierArg.num ListenerType.ACTIVE)).1 "" =
        some ⟨[⟨l, ListenerType.ACTIVE⟩], 1⟩ := by
      simp [onImpl, setKey, lookupSet, onUpdate, tierNum,
        ListenerType.ACTIVE, ListenerType.PASSIVE]
    simp only [emitRun, hlk, govSignal, Option.isSome_none]
    rw [emitLoop_no_signal_no_throw]
    · rfl
    · intro e _
      exact henv e.fn

/-- Witness for C9 on the concrete registry `regW6` (which has listeners on
`"x"` and `"error"` and none on `""`). -/
theorem off_empty_string_clears_all_witness :
    offImpl regW6 (some "") (some 5) = offImpl regW6 none none ∧
    (offImpl regW6 (some "") (some 5)).1 = [] ∧
    (offImpl regW6 (some "") (some 5)).2 =
      regW6.flatMap (fun p => p.2.listeners.map fun e => (p.1, e.fn)) ∧
    lookupSet (onImpl regW6 "" 7 (TierArg.num ListenerType.ACTIVE)).1 "" =
      some (onUpdate (lookupSet regW6 "") 7 ListenerType.ACTIVE) ∧
    emitRun envW1 (onImpl [] "" 7 (TierArg.num ListenerType.ACTIVE)).1 "" none =
      (Except.ok true, [7], []) :=
  off_empty_string_clears_all regW6 (some 5) 7 envW1 (fun _ => rfl)
